import Mathlib

/-!
Verification of the admin API management tool (`admin-api-examples.py`).

The file shallowly embeds the Python source: JSON values are an inductive
type, the HTTP library (`requests`) is an oracle mapping a request to an
outcome (a raised transport error, or a response with status, reason phrase
and body), and every operation of `PlatformAdminManager` is a total Lean
function over that oracle.  Python exceptions that the source catches are
values of the outcome type; exceptions that escape `main` are modelled in
its result type.
-/

namespace AdminApi

/-- JSON values, the data exchanged with the remote instances.  Objects keep
their fields in insertion order, matching Python dicts. -/
inductive Json where
  | null : Json
  | bool : Bool → Json
  | num : Int → Json
  | str : String → Json
  | arr : List Json → Json
  | obj : List (String × Json) → Json

/-- HTTP method of a request (`requests.get` / `requests.post`). -/
inductive Method where
  | GET : Method
  | POST : Method

/-- One HTTP request as the source builds it: method, full URL, header list,
optional JSON body (the `json=` keyword argument) and timeout in seconds. -/
structure Request where
  method : Method
  url : String
  headers : List (String × String)
  body : Option Json
  timeout : Nat

/-- Outcome of `response.json()`: either the parsed JSON value, or the
message of the decode error it raises on an unparseable body. -/
inductive BodyParse where
  | parsed : Json → BodyParse
  | invalid : String → BodyParse

/-- Outcome of issuing one HTTP request through `requests`:
`exn msg` models a raised transport error (connection refused, timeout,
malformed response, ...) with message `str(e) = msg`; `resp status reason
body` models a response that arrived with the given status code, reason
phrase, and body. -/
inductive HttpOutcome where
  | exn : String → HttpOutcome
  | resp : Nat → String → BodyParse → HttpOutcome

/-- The network environment: what outcome the library produces for a given
request.  Single-instance operations are parameterised by one such oracle. -/
def Net : Type := Request → HttpOutcome

/-- Message of the `HTTPError` raised by `Response.raise_for_status` for a
status code in the 4xx range (client error) or 5xx range (server error),
following the `requests` library:
`f"{status} Client Error: {reason} for url: {url}"` and the analogous
server-error text. -/
def httpErrorMsg (status : Nat) (reason url : String) : String :=
  if status < 500 then
    toString status ++ " Client Error: " ++ reason ++ " for url: " ++ url
  else
    toString status ++ " Server Error: " ++ reason ++ " for url: " ++ url

/-- `Response.raise_for_status` raises exactly for status codes in
`[400, 600)`; other codes (including non-2xx codes such as 304) pass. -/
def raisesForStatus (status : Nat) : Bool :=
  400 ≤ status && status < 600

/-- The dict `{"status": "success", "data": data}` returned by every
operation on success. -/
def successResult (data : Json) : Json :=
  Json.obj [("status", Json.str "success"), ("data", data)]

/-- The dict `{"status": "error", "error": str(e)}` returned by every
operation from its `except` clause. -/
def errorResult (msg : String) : Json :=
  Json.obj [("status", Json.str "error"), ("error", Json.str msg)]

/-- The shared `try/except` body of the five operations: issue the request,
call `raise_for_status`, parse the body, and convert any raised exception
into the error dict. -/
def runRequest (net : Net) (req : Request) : Json :=
  match net req with
  | HttpOutcome.exn msg => errorResult msg
  | HttpOutcome.resp status reason body =>
    if raisesForStatus status then
      errorResult (httpErrorMsg status reason req.url)
    else
      match body with
      | BodyParse.parsed v => successResult v
      | BodyParse.invalid msg => errorResult msg

/-- The manager class: holds the admin key supplied at construction. -/
structure PlatformAdminManager where
  admin_key : String

namespace PlatformAdminManager

/-- `self.headers` as built in `__init__`. -/
def headers (m : PlatformAdminManager) : List (String × String) :=
  [("Authorization", "Admin " ++ m.admin_key),
   ("Content-Type", "application/json")]

/-- The request `ping` issues. -/
def pingRequest (m : PlatformAdminManager) (instance_url : String) : Request :=
  { method := Method.GET, url := instance_url ++ "/api/admin/ping",
    headers := m.headers, body := none, timeout := 10 }

/-- The request `health_check` issues. -/
def healthRequest (m : PlatformAdminManager) (instance_url : String) : Request :=
  { method := Method.GET, url := instance_url ++ "/api/admin/health",
    headers := m.headers, body := none, timeout := 30 }

/-- The request `system_info` issues. -/
def infoRequest (m : PlatformAdminManager) (instance_url : String) : Request :=
  { method := Method.GET, url := instance_url ++ "/api/admin/info",
    headers := m.headers, body := none, timeout := 15 }

/-- The request `deploy_integration` issues. -/
def deployRequest (m : PlatformAdminManager) (instance_url : String)
    (integration_config : Json) : Request :=
  { method := Method.POST, url := instance_url ++ "/api/admin/integrations/deploy",
    headers := m.headers, body := some integration_config, timeout := 60 }

/-- The request `execute_migration` issues. -/
def migrateRequest (m : PlatformAdminManager) (instance_url : String)
    (migration_config : Json) : Request :=
  { method := Method.POST, url := instance_url ++ "/api/admin/migrations/execute",
    headers := m.headers, body := some migration_config, timeout := 120 }

/-- `ping`: test connectivity to a platform instance. -/
def ping (m : PlatformAdminManager) (net : Net) (instance_url : String) : Json :=
  runRequest net (m.pingRequest instance_url)

/-- `health_check`: get health status of a platform instance. -/
def health_check (m : PlatformAdminManager) (net : Net) (instance_url : String) : Json :=
  runRequest net (m.healthRequest instance_url)

/-- `system_info`: get system information and database status. -/
def system_info (m : PlatformAdminManager) (net : Net) (instance_url : String) : Json :=
  runRequest net (m.infoRequest instance_url)

/-- `deploy_integration`: deploy or update an integration on an instance. -/
def deploy_integration (m : PlatformAdminManager) (net : Net)
    (instance_url : String) (integration_config : Json) : Json :=
  runRequest net (m.deployRequest instance_url integration_config)

/-- `execute_migration`: execute a database migration on an instance. -/
def execute_migration (m : PlatformAdminManager) (net : Net)
    (instance_url : String) (migration_config : Json) : Json :=
  runRequest net (m.migrateRequest instance_url migration_config)

end PlatformAdminManager

/-- Observable console / network events, in order of occurrence:
`echo line` is a `print(line)`, `call req` is an HTTP request being issued. -/
inductive Event where
  | echo : String → Event
  | call : Request → Event

/-- Whether an event is an HTTP call. -/
def Event.isCall : Event → Bool
  | Event.echo _ => false
  | Event.call _ => true

/-- Number of HTTP calls in an event trace. -/
def countCalls (evts : List Event) : Nat :=
  (evts.filter Event.isCall).length

/-- Python dict assignment `d[k] = v`: if `k` is already a key, its entry is
overwritten in place (keeping its original position); otherwise the pair is
appended at the end.  Dicts preserve insertion order. -/
def dictInsert (d : List (String × Json)) (k : String) (v : Json) :
    List (String × Json) :=
  if d.any (fun p => p.1 = k) then
    d.map (fun p => if p.1 = k then (k, v) else p)
  else
    d ++ [(k, v)]

/-- First value stored under key `k` in a dict, Python `d[k]`. -/
def dictLookup (d : List (String × Json)) (k : String) : Option Json :=
  (d.find? (fun p => p.1 = k)).map (fun p => p.2)

/-- The bulk loop shared by `bulk_health_check` and
`bulk_deploy_integration`: for each URL in order, print the progress line,
issue the single-instance request, and store the result under the URL.
`net i` is the network oracle for the `i`-th issued call, so that two calls
to the same URL may have different outcomes.  Returns the event trace and
the final results dict. -/
def bulkRun (line : String → String) (req : String → Request)
    (net : Nat → Net) (i : Nat) (results : List (String × Json)) :
    List String → List Event × List (String × Json)
  | [] => ([], results)
  | url :: rest =>
    (Event.echo (line url) :: Event.call (req url) ::
       (bulkRun line req net (i + 1)
         (dictInsert results url (runRequest (net i) (req url))) rest).1,
     (bulkRun line req net (i + 1)
       (dictInsert results url (runRequest (net i) (req url))) rest).2)

/-- `bulk_health_check`: health checks across multiple platform instances,
strictly in sequence, collecting one dict of per-URL results. -/
def PlatformAdminManager.bulk_health_check (m : PlatformAdminManager)
    (net : Nat → Net) (instance_urls : List String) :
    List Event × List (String × Json) :=
  bulkRun (fun url => "Checking health for " ++ url ++ "...")
    (fun url => m.healthRequest url) net 0 [] instance_urls

/-- `bulk_deploy_integration`: deploy one shared integration config across
multiple platform instances, strictly in sequence. -/
def PlatformAdminManager.bulk_deploy_integration (m : PlatformAdminManager)
    (net : Nat → Net) (instance_urls : List String)
    (integration_config : Json) : List Event × List (String × Json) :=
  bulkRun (fun url => "Deploying integration to " ++ url ++ "...")
    (fun url => m.deployRequest url integration_config) net 0 [] instance_urls

/-- The CLI action selector; `argparse` restricts `--action` to these five
choices. -/
inductive Action where
  | ping : Action
  | health : Action
  | info : Action
  | deploy : Action
  | migrate : Action

/-- Parsed command-line arguments of `main` after `argparse` succeeds:
`--admin-key`, `--instance`, `--action` (all required) and the optional
`--config-file`. -/
structure Args where
  admin_key : String
  instanceUrl : String
  action : Action
  config_file : Option String

/-- An exception that escapes `main` uncaught: `open(path)` raising an
`OSError`, or `json.load` raising a decode error with message `msg`. -/
inductive UncaughtExn where
  | ioError : String → UncaughtExn
  | jsonDecodeError : String → String → UncaughtExn

/-- CLI-level observable events: `print` of a plain string, `print` of a
`json.dumps(result, indent=2)` rendering of a result dict, or an HTTP
request being issued. -/
inductive CliEvent where
  | echo : String → CliEvent
  | echoJson : Json → CliEvent
  | call : Request → CliEvent

/-- Whether a CLI event is an HTTP call. -/
def CliEvent.isCall : CliEvent → Bool
  | CliEvent.call _ => true
  | _ => false

/-- Number of HTTP calls in a CLI event trace. -/
def countCliCalls (evts : List CliEvent) : Nat :=
  (evts.filter CliEvent.isCall).length

/-- What one run of `main` does: the ordered events it produced, and the
exception that escaped it uncaught (`none` when it returned normally). -/
structure MainResult where
  events : List CliEvent
  exn : Option UncaughtExn

/-- The file system environment for `main`: for a path, `none` means
`open(path)` raises; `some (Except.error msg)` means the file opens but
`json.load` raises a decode error with message `msg`; `some (Except.ok v)`
means the file holds the JSON document `v`. -/
def FileSys : Type := String → Option (Except String Json)

/-- The `main` entry point after argument parsing: construct the manager
from `--admin-key` and dispatch on `--action`, printing the result of the
operation as JSON.  For `deploy` / `migrate` the source guards with
`if not args.config_file:`, a truthiness test that fires both when the
argument is absent (`None`) and when it is the empty string; in either
case it prints the usage line and returns.  Otherwise it opens and parses
the file (both outside any `try`, so failures escape uncaught) and
performs the call. -/
def main (fs : FileSys) (net : Net) (args : Args) : MainResult :=
  let m : PlatformAdminManager := { admin_key := args.admin_key }
  match args.action with
  | Action.ping =>
    { events := [CliEvent.call (m.pingRequest args.instanceUrl),
                 CliEvent.echoJson (m.ping net args.instanceUrl)],
      exn := none }
  | Action.health =>
    { events := [CliEvent.call (m.healthRequest args.instanceUrl),
                 CliEvent.echoJson (m.health_check net args.instanceUrl)],
      exn := none }
  | Action.info =>
    { events := [CliEvent.call (m.infoRequest args.instanceUrl),
                 CliEvent.echoJson (m.system_info net args.instanceUrl)],
      exn := none }
  | Action.deploy =>
    match args.config_file with
    | none =>
      { events := [CliEvent.echo "--config-file required for deploy action"],
        exn := none }
    | some path =>
      if path = "" then
        { events := [CliEvent.echo "--config-file required for deploy action"],
          exn := none }
      else
        match fs path with
        | none => { events := [], exn := some (UncaughtExn.ioError path) }
        | some (Except.error msg) =>
          { events := [], exn := some (UncaughtExn.jsonDecodeError path msg) }
        | some (Except.ok config) =>
          { events := [CliEvent.call (m.deployRequest args.instanceUrl config),
                       CliEvent.echoJson (m.deploy_integration net args.instanceUrl config)],
            exn := none }
  | Action.migrate =>
    match args.config_file with
    | none =>
      { events := [CliEvent.echo "--config-file required for migrate action"],
        exn := none }
    | some path =>
      if path = "" then
        { events := [CliEvent.echo "--config-file required for migrate action"],
          exn := none }
      else
        match fs path with
        | none => { events := [], exn := some (UncaughtExn.ioError path) }
        | some (Except.error msg) =>
          { events := [], exn := some (UncaughtExn.jsonDecodeError path msg) }
        | some (Except.ok config) =>
          { events := [CliEvent.call (m.migrateRequest args.instanceUrl config),
                       CliEvent.echoJson (m.execute_migration net args.instanceUrl config)],
            exn := none }

/-! ## Result-shape predicates and `runRequest` case analysis -/

/-- A result dict has the shape every operation produces: exactly the
success dict for some data, or exactly the error dict for some message. -/
def resultShape (r : Json) : Prop :=
  (∃ v, r = successResult v) ∨ (∃ msg, r = errorResult msg)

/-- Whether a result dict is exactly a failure dict
`{"status": "error", "error": <msg>}`. -/
def isFailureResult : Json → Bool
  | Json.obj [("status", Json.str "error"), ("error", Json.str _)] => true
  | _ => false

/-- Whether a result dict is exactly a success dict
`{"status": "success", "data": <v>}`. -/
def isSuccessResult : Json → Bool
  | Json.obj [("status", Json.str "success"), ("data", _)] => true
  | _ => false

/-- What the shared `try/except` body guarantees about failures: the result
is always one of the two dict shapes; a raised transport error, a 4xx/5xx
status, and an unparseable body each produce the corresponding error dict. -/
def handlesFailures (net : Net) (req : Request) (result : Json) : Prop :=
  resultShape result ∧
  (∀ msg, net req = HttpOutcome.exn msg → result = errorResult msg) ∧
  (∀ s reason b, 400 ≤ s → s < 600 → net req = HttpOutcome.resp s reason b →
      result = errorResult (httpErrorMsg s reason req.url)) ∧
  (∀ s reason pmsg, raisesForStatus s = false →
      net req = HttpOutcome.resp s reason (BodyParse.invalid pmsg) →
      result = errorResult pmsg)

theorem runRequest_shape (net : Net) (req : Request) :
    resultShape (runRequest net req) := by
  unfold resultShape runRequest
  cases hn : net req with
  | exn msg => exact Or.inr ⟨msg, rfl⟩
  | resp status reason body =>
    cases hs : raisesForStatus status with
    | true => exact Or.inr ⟨httpErrorMsg status reason req.url, by simp [hs]⟩
    | false =>
      cases body with
      | parsed v => exact Or.inl ⟨v, by simp [hs]⟩
      | invalid msg => exact Or.inr ⟨msg, by simp [hs]⟩

theorem runRequest_exn (net : Net) (req : Request) (msg : String)
    (h : net req = HttpOutcome.exn msg) : runRequest net req = errorResult msg := by
  unfold runRequest
  rw [h]

theorem raisesForStatus_true (s : Nat) (h4 : 400 ≤ s) (h6 : s < 600) :
    raisesForStatus s = true := by
  simp only [raisesForStatus, Bool.and_eq_true, decide_eq_true_eq]
  omega

theorem raisesForStatus_2xx (s : Nat) (h2 : 200 ≤ s) (h3 : s < 300) :
    raisesForStatus s = false := by
  simp only [raisesForStatus, Bool.and_eq_false_iff, decide_eq_false_iff_not]
  omega

theorem runRequest_4xx5xx (net : Net) (req : Request) (s : Nat)
    (reason : String) (b : BodyParse) (h4 : 400 ≤ s) (h6 : s < 600)
    (h : net req = HttpOutcome.resp s reason b) :
    runRequest net req = errorResult (httpErrorMsg s reason req.url) := by
  unfold runRequest
  rw [h]
  simp [raisesForStatus_true s h4 h6]

theorem runRequest_invalid (net : Net) (req : Request) (s : Nat)
    (reason pmsg : String) (hs : raisesForStatus s = false)
    (h : net req = HttpOutcome.resp s reason (BodyParse.invalid pmsg)) :
    runRequest net req = errorResult pmsg := by
  unfold runRequest
  rw [h]
  simp [hs]

theorem runRequest_ok (net : Net) (req : Request) (s : Nat)
    (reason : String) (v : Json) (hs : raisesForStatus s = false)
    (h : net req = HttpOutcome.resp s reason (BodyParse.parsed v)) :
    runRequest net req = successResult v := by
  unfold runRequest
  rw [h]
  simp [hs]

theorem runRequest_handles (net : Net) (req : Request) :
    handlesFailures net req (runRequest net req) :=
  ⟨runRequest_shape net req,
   fun msg h => runRequest_exn net req msg h,
   fun s reason b h4 h6 h => runRequest_4xx5xx net req s reason b h4 h6 h,
   fun s reason pmsg hs h => runRequest_invalid net req s reason pmsg hs h⟩

theorem httpErrorMsg_ne_empty (s : Nat) (reason url : String) :
    httpErrorMsg s reason url ≠ "" := by
  have hlen : (httpErrorMsg s reason url).length ≠ 0 := by
    have hc : (" Client Error: " : String).length = 15 := rfl
    have hsrv : (" Server Error: " : String).length = 15 := rfl
    unfold httpErrorMsg
    by_cases hlt : s < 500 <;>
      simp only [hlt, if_true, if_false, String.length_append] <;> omega
  intro he
  rw [he] at hlen
  exact hlen rfl

/-! ## Concrete managers and network oracles used by witnesses and
counterexamples -/

/-- A concrete manager. -/
def mgrW : PlatformAdminManager := { admin_key := "k" }

/-- A network where every request raises a connection error. -/
def netExnW : Net := fun _ => HttpOutcome.exn "Connection refused"

/-- A network answering 200 with the JSON body `null`. -/
def netOkW : Net := fun _ => HttpOutcome.resp 200 "OK" (BodyParse.parsed Json.null)

/-- A network answering 404 with an unparseable body. -/
def net404W : Net := fun _ => HttpOutcome.resp 404 "Not Found" (BodyParse.invalid "Expecting value")

/-- A network answering 304 Not Modified — a non-2xx status that
`raise_for_status` does not raise for — with the parseable body `null`. -/
def net304W : Net := fun _ => HttpOutcome.resp 304 "Not Modified" (BodyParse.parsed Json.null)

/-- A network answering 300 Multiple Choices — non-2xx, not raised for —
with the parseable body `true`. -/
def net300W : Net := fun _ => HttpOutcome.resp 300 "Multiple Choices" (BodyParse.parsed (Json.bool true))

/-! ## Claims C5, C8, C4 -/

/-- C5: every operation issues exactly the request of the operation table —
ping GET `<base>/api/admin/ping` timeout 10, healthCheck GET
`/api/admin/health` 30, systemInfo GET `/api/admin/info` 15,
deployIntegration POST `/api/admin/integrations/deploy` 60,
executeMigration POST `/api/admin/migrations/execute` 120 — and every
request carries the headers `Authorization: Admin <credential>` and
`Content-Type: application/json` built from the construction-time
credential. -/
theorem C5_request_table (m : PlatformAdminManager) (net : Net)
    (url : String) (icfg mcfg : Json) :
    m.pingRequest url =
      { method := Method.GET, url := url ++ "/api/admin/ping",
        headers := [("Authorization", "Admin " ++ m.admin_key),
                    ("Content-Type", "application/json")],
        body := none, timeout := 10 } ∧
    m.healthRequest url =
      { method := Method.GET, url := url ++ "/api/admin/health",
        headers := [("Authorization", "Admin " ++ m.admin_key),
                    ("Content-Type", "application/json")],
        body := none, timeout := 30 } ∧
    m.infoRequest url =
      { method := Method.GET, url := url ++ "/api/admin/info",
        headers := [("Authorization", "Admin " ++ m.admin_key),
                    ("Content-Type", "application/json")],
        body := none, timeout := 15 } ∧
    m.deployRequest url icfg =
      { method := Method.POST, url := url ++ "/api/admin/integrations/deploy",
        headers := [("Authorization", "Admin " ++ m.admin_key),
                    ("Content-Type", "application/json")],
        body := some icfg, timeout := 60 } ∧
    m.migrateRequest url mcfg =
      { method := Method.POST, url := url ++ "/api/admin/migrations/execute",
        headers := [("Authorization", "Admin " ++ m.admin_key),
                    ("Content-Type", "application/json")],
        body := some mcfg, timeout := 120 } ∧
    m.ping net url = runRequest net (m.pingRequest url) ∧
    m.health_check net url = runRequest net (m.healthRequest url) ∧
    m.system_info net url = runRequest net (m.infoRequest url) ∧
    m.deploy_integration net url icfg = runRequest net (m.deployRequest url icfg) ∧
    m.execute_migration net url mcfg = runRequest net (m.migrateRequest url mcfg) :=
  ⟨rfl, rfl, rfl, rfl, rfl, rfl, rfl, rfl, rfl, rfl⟩

/-- C8: the config passed to `deploy_integration` / `execute_migration` is
transmitted verbatim as the request body; the dispatcher performs the
request on exactly that body, interpreting, validating, removing or
defaulting nothing. -/
theorem C8_config_verbatim (m : PlatformAdminManager) (net : Net)
    (url : String) (cfg : Json) :
    (m.deployRequest url cfg).body = some cfg ∧
    (m.migrateRequest url cfg).body = some cfg ∧
    m.deploy_integration net url cfg = runRequest net (m.deployRequest url cfg) ∧
    m.execute_migration net url cfg = runRequest net (m.migrateRequest url cfg) :=
  ⟨rfl, rfl, rfl, rfl⟩

/-- C4: for each of the five operations, a completed request with a 2xx
status and a body that parses as JSON yields the success dict holding
exactly the parsed body. -/
theorem C4_2xx_success (m : PlatformAdminManager) (net : Net)
    (url : String) (icfg mcfg : Json) (s : Nat) (reason : String) (v : Json)
    (h2 : 200 ≤ s) (h3 : s < 300) :
    (net (m.pingRequest url) = HttpOutcome.resp s reason (BodyParse.parsed v) →
      m.ping net url = successResult v) ∧
    (net (m.healthRequest url) = HttpOutcome.resp s reason (BodyParse.parsed v) →
      m.health_check net url = successResult v) ∧
    (net (m.infoRequest url) = HttpOutcome.resp s reason (BodyParse.parsed v) →
      m.system_info net url = successResult v) ∧
    (net (m.deployRequest url icfg) = HttpOutcome.resp s reason (BodyParse.parsed v) →
      m.deploy_integration net url icfg = successResult v) ∧
    (net (m.migrateRequest url mcfg) = HttpOutcome.resp s reason (BodyParse.parsed v) →
      m.execute_migration net url mcfg = successResult v) :=
  ⟨fun h => runRequest_ok net _ s reason v (raisesForStatus_2xx s h2 h3) h,
   fun h => runRequest_ok net _ s reason v (raisesForStatus_2xx s h2 h3) h,
   fun h => runRequest_ok net _ s reason v (raisesForStatus_2xx s h2 h3) h,
   fun h => runRequest_ok net _ s reason v (raisesForStatus_2xx s h2 h3) h,
   fun h => runRequest_ok net _ s reason v (raisesForStatus_2xx s h2 h3) h⟩

theorem C4_2xx_success_witness :
    200 ≤ 200 ∧ 200 < 300 ∧
    mgrW.ping netOkW "http://x" = successResult Json.null :=
  ⟨by decide, by decide,
   (C4_2xx_success mgrW netOkW "http://x" Json.null Json.null 200 "OK"
     Json.null (by decide) (by decide)).1 rfl⟩

/-! ## Claims C1, C3 -/

/-- C1 counterexample: `requests.Response.raise_for_status` raises only for
status codes 400–599, so a 304 response — a non-2xx outcome of the HTTP
request — with a parseable JSON body makes `ping` return the success dict,
not a Failure. -/
theorem C1_non2xx_counterexample :
    mgrW.ping net304W "http://x" = successResult Json.null ∧
    isFailureResult (mgrW.ping net304W "http://x") = false :=
  ⟨rfl, rfl⟩

/-- C1 (amended): for every one of the five operations and for every
failure outcome of the underlying HTTP request — transport/connection
error, timeout, status in 400–599, unparseable response body — the
operation returns the error dict carrying a message string, and for every
outcome whatsoever the result is one of the two result dicts (never a
raised/unhandled error); a non-2xx status outside 400–599 with a parseable
body yields the success dict instead of a failure. -/
theorem C1_catch_all (m : PlatformAdminManager) (net : Net)
    (url : String) (icfg mcfg : Json) :
    handlesFailures net (m.pingRequest url) (m.ping net url) ∧
    handlesFailures net (m.healthRequest url) (m.health_check net url) ∧
    handlesFailures net (m.infoRequest url) (m.system_info net url) ∧
    handlesFailures net (m.deployRequest url icfg) (m.deploy_integration net url icfg) ∧
    handlesFailures net (m.migrateRequest url mcfg) (m.execute_migration net url mcfg) :=
  ⟨runRequest_handles net (m.pingRequest url),
   runRequest_handles net (m.healthRequest url),
   runRequest_handles net (m.infoRequest url),
   runRequest_handles net (m.deployRequest url icfg),
   runRequest_handles net (m.migrateRequest url mcfg)⟩

theorem C1_catch_all_witness :
    mgrW.ping netExnW "http://x" = errorResult "Connection refused" :=
  ((C1_catch_all mgrW netExnW "http://x" Json.null Json.null).1).2.1
    "Connection refused" rfl

/-- C3 counterexample: a 300 Multiple Choices response — non-2xx — with a
parseable JSON body makes `health_check` return the success dict, because
`raise_for_status` raises only for statuses 400–599. -/
theorem C3_non2xx_counterexample :
    mgrW.health_check net300W "http://y" = successResult (Json.bool true) ∧
    isFailureResult (mgrW.health_check net300W "http://y") = false :=
  ⟨rfl, rfl⟩

/-- C3 (amended): for every one of the five operations and every response
whose status is in the 4xx or 5xx range (400–599), the operation returns
the error dict with a non-empty message, never a success and never an
unhandled error; non-2xx statuses outside 400–599 are not treated as
failures by the status check. -/
theorem C3_4xx5xx_failure (m : PlatformAdminManager) (net : Net)
    (url : String) (icfg mcfg : Json) (s : Nat) (reason : String)
    (b : BodyParse) (h4 : 400 ≤ s) (h6 : s < 600) :
    (net (m.pingRequest url) = HttpOutcome.resp s reason b →
      m.ping net url = errorResult (httpErrorMsg s reason (url ++ "/api/admin/ping")) ∧
      httpErrorMsg s reason (url ++ "/api/admin/ping") ≠ "") ∧
    (net (m.healthRequest url) = HttpOutcome.resp s reason b →
      m.health_check net url = errorResult (httpErrorMsg s reason (url ++ "/api/admin/health")) ∧
      httpErrorMsg s reason (url ++ "/api/admin/health") ≠ "") ∧
    (net (m.infoRequest url) = HttpOutcome.resp s reason b →
      m.system_info net url = errorResult (httpErrorMsg s reason (url ++ "/api/admin/info")) ∧
      httpErrorMsg s reason (url ++ "/api/admin/info") ≠ "") ∧
    (net (m.deployRequest url icfg) = HttpOutcome.resp s reason b →
      m.deploy_integration net url icfg =
        errorResult (httpErrorMsg s reason (url ++ "/api/admin/integrations/deploy")) ∧
      httpErrorMsg s reason (url ++ "/api/admin/integrations/deploy") ≠ "") ∧
    (net (m.migrateRequest url mcfg) = HttpOutcome.resp s reason b →
      m.execute_migration net url mcfg =
        errorResult (httpErrorMsg s reason (url ++ "/api/admin/migrations/execute")) ∧
      httpErrorMsg s reason (url ++ "/api/admin/migrations/execute") ≠ "") :=
  ⟨fun h => ⟨runRequest_4xx5xx net _ s reason b h4 h6 h, httpErrorMsg_ne_empty s reason _⟩,
   fun h => ⟨runRequest_4xx5xx net _ s reason b h4 h6 h, httpErrorMsg_ne_empty s reason _⟩,
   fun h => ⟨runRequest_4xx5xx net _ s reason b h4 h6 h, httpErrorMsg_ne_empty s reason _⟩,
   fun h => ⟨runRequest_4xx5xx net _ s reason b h4 h6 h, httpErrorMsg_ne_empty s reason _⟩,
   fun h => ⟨runRequest_4xx5xx net _ s reason b h4 h6 h, httpErrorMsg_ne_empty s reason _⟩⟩

theorem C3_4xx5xx_failure_witness :
    400 ≤ 404 ∧ 404 < 600 ∧
    mgrW.ping net404W "http://x" =
      errorResult (httpErrorMsg 404 "Not Found" ("http://x" ++ "/api/admin/ping")) :=
  ⟨by decide, by decide,
   ((C3_4xx5xx_failure mgrW net404W "http://x" Json.null Json.null 404
      "Not Found" (BodyParse.invalid "Expecting value") (by decide) (by decide)).1 rfl).1⟩

/-! ## Claims C7, C10 -/

/-- A file system with no readable files: `open` raises on every path. -/
def fsNoneW : FileSys := fun _ => none

/-- A file system where every file opens but holds invalid JSON. -/
def fsBadW : FileSys := fun _ => some (Except.error "Expecting value: line 1 column 1 (char 0)")

/-- C7: invoking the entry point with action deploy or migrate and no
`--config-file` prints the usage line and returns normally with zero HTTP
calls performed. -/
theorem C7_missing_config_usage (fs : FileSys) (net : Net) (key inst : String) :
    main fs net { admin_key := key, instanceUrl := inst,
                  action := Action.deploy, config_file := none } =
      { events := [CliEvent.echo "--config-file required for deploy action"],
        exn := none } ∧
    countCliCalls (main fs net { admin_key := key, instanceUrl := inst,
                                 action := Action.deploy, config_file := none }).events = 0 ∧
    main fs net { admin_key := key, instanceUrl := inst,
                  action := Action.migrate, config_file := none } =
      { events := [CliEvent.echo "--config-file required for migrate action"],
        exn := none } ∧
    countCliCalls (main fs net { admin_key := key, instanceUrl := inst,
                                 action := Action.migrate, config_file := none }).events = 0 :=
  ⟨rfl, rfl, rfl, rfl⟩

/-- C10 counterexample: the source's guard `if not args.config_file:` is a
truthiness test, so the empty-string path — which does not name a readable
file (`open("")` would raise) — takes the usage-message branch: the entry
point prints the usage line and returns normally, raising nothing. -/
theorem C10_empty_path_counterexample :
    fsNoneW "" = none ∧
    main fsNoneW netExnW { admin_key := "k", instanceUrl := "http://x",
                           action := Action.deploy, config_file := some "" } =
      { events := [CliEvent.echo "--config-file required for deploy action"],
        exn := none } ∧
    (main fsNoneW netExnW { admin_key := "k", instanceUrl := "http://x",
                            action := Action.deploy, config_file := some "" }).exn = none :=
  ⟨rfl, rfl, rfl⟩

/-- C10 (amended): with action deploy or migrate and a non-empty
`--config-file` path that is unreadable or holds invalid JSON, the entry
point lets the `open` / `json.load` exception escape uncaught (the file
handling is outside the operations' catch-all), emits no output, and sends
no HTTP request; an empty-string path instead triggers the usage message
like a missing one, because the source's guard is a truthiness test. -/
theorem C10_config_errors_uncaught (fs : FileSys) (net : Net)
    (key inst path : String) (hpath : path ≠ "") :
    (fs path = none →
      main fs net { admin_key := key, instanceUrl := inst,
                    action := Action.deploy, config_file := some path } =
        { events := [], exn := some (UncaughtExn.ioError path) } ∧
      main fs net { admin_key := key, instanceUrl := inst,
                    action := Action.migrate, config_file := some path } =
        { events := [], exn := some (UncaughtExn.ioError path) }) ∧
    (∀ msg, fs path = some (Except.error msg) →
      main fs net { admin_key := key, instanceUrl := inst,
                    action := Action.deploy, config_file := some path } =
        { events := [], exn := some (UncaughtExn.jsonDecodeError path msg) } ∧
      main fs net { admin_key := key, instanceUrl := inst,
                    action := Action.migrate, config_file := some path } =
        { events := [], exn := some (UncaughtExn.jsonDecodeError path msg) }) := by
  constructor
  · intro h
    constructor <;> simp only [main, if_neg hpath, h]
  · intro msg h
    constructor <;> simp only [main, if_neg hpath, h]

theorem C10_config_errors_uncaught_witness :
    "cfg.json" ≠ "" ∧
    fsNoneW "cfg.json" = none ∧
    main fsNoneW netExnW { admin_key := "k", instanceUrl := "http://x",
                           action := Action.deploy, config_file := some "cfg.json" } =
      { events := [], exn := some (UncaughtExn.ioError "cfg.json") } :=
  ⟨by decide, rfl,
   ((C10_config_errors_uncaught fsNoneW netExnW "k" "http://x" "cfg.json"
      (by decide)).1 rfl).1⟩

/-! ## Dict lemmas: Python dict assignment and subscripting -/

theorem any_key_iff (d : List (String × Json)) (k : String) :
    d.any (fun p => p.1 = k) = true ↔ k ∈ d.map Prod.fst := by
  rw [List.any_eq_true]
  simp only [decide_eq_true_eq, List.mem_map]

theorem dictLookup_cons_pos (p : String × Json) (d : List (String × Json))
    (k : String) (h : p.1 = k) : dictLookup (p :: d) k = some p.2 := by
  unfold dictLookup
  rw [List.find?_cons_of_pos _ (by simp [h])]
  rfl

theorem dictLookup_cons_neg (p : String × Json) (d : List (String × Json))
    (k : String) (h : ¬ p.1 = k) : dictLookup (p :: d) k = dictLookup d k := by
  unfold dictLookup
  rw [List.find?_cons_of_neg _ (by simp [h])]

theorem dictLookup_map_overwrite (d : List (String × Json)) (k : String)
    (v : Json) (h : k ∈ d.map Prod.fst) :
    dictLookup (d.map (fun p => if p.1 = k then (k, v) else p)) k = some v := by
  induction d with
  | nil => simp at h
  | cons p d ih =>
    by_cases hp : p.1 = k
    · simp only [List.map_cons, if_pos hp]
      exact dictLookup_cons_pos (k, v) _ k rfl
    · simp only [List.map_cons, if_neg hp]
      rw [dictLookup_cons_neg p _ k hp]
      apply ih
      rcases List.mem_cons.mp h with h1 | h2
      · exact absurd h1.symm hp
      · exact h2

theorem dictLookup_append_absent (d : List (String × Json)) (k : String)
    (v : Json) (h : ¬ k ∈ d.map Prod.fst) :
    dictLookup (d ++ [(k, v)]) k = some v := by
  induction d with
  | nil => exact dictLookup_cons_pos (k, v) [] k rfl
  | cons p d ih =>
    have hp : ¬ p.1 = k := fun hc => h (by simp [hc.symm])
    rw [List.cons_append, dictLookup_cons_neg p _ k hp]
    exact ih (fun hc => h (by simp only [List.map_cons, List.mem_cons]; exact Or.inr hc))

theorem dictLookup_insert_self (d : List (String × Json)) (k : String) (v : Json) :
    dictLookup (dictInsert d k v) k = some v := by
  unfold dictInsert
  by_cases h : k ∈ d.map Prod.fst
  · rw [if_pos ((any_key_iff d k).2 h)]
    exact dictLookup_map_overwrite d k v h
  · rw [if_neg (fun hc => h ((any_key_iff d k).1 hc))]
    exact dictLookup_append_absent d k v h

theorem dictLookup_map_overwrite_ne (d : List (String × Json)) (k q : String)
    (v : Json) (h : q ≠ k) :
    dictLookup (d.map (fun p => if p.1 = k then (k, v) else p)) q = dictLookup d q := by
  induction d with
  | nil => rfl
  | cons p d ih =>
    simp only [List.map_cons]
    by_cases hp : p.1 = k
    · rw [if_pos hp]
      rw [dictLookup_cons_neg (k, v) _ q (fun hc => h hc.symm)]
      rw [dictLookup_cons_neg p d q (fun hq => h (hq.symm.trans hp))]
      exact ih
    · rw [if_neg hp]
      by_cases hq : p.1 = q
      · rw [dictLookup_cons_pos p _ q hq, dictLookup_cons_pos p d q hq]
      · rw [dictLookup_cons_neg p _ q hq, dictLookup_cons_neg p d q hq]
        exact ih

theorem dictLookup_append_ne (d : List (String × Json)) (k q : String)
    (v : Json) (h : q ≠ k) :
    dictLookup (d ++ [(k, v)]) q = dictLookup d q := by
  induction d with
  | nil =>
    simp only [List.nil_append]
    exact dictLookup_cons_neg (k, v) [] q (fun hc => h hc.symm)
  | cons p d ih =>
    rw [List.cons_append]
    by_cases hq : p.1 = q
    · rw [dictLookup_cons_pos p _ q hq, dictLookup_cons_pos p d q hq]
    · rw [dictLookup_cons_neg p _ q hq, dictLookup_cons_neg p d q hq]
      exact ih

theorem dictLookup_insert_ne (d : List (String × Json)) (k q : String)
    (v : Json) (h : q ≠ k) :
    dictLookup (dictInsert d k v) q = dictLookup d q := by
  unfold dictInsert
  by_cases hm : d.any (fun p => p.1 = k)
  · rw [if_pos hm]
    exact dictLookup_map_overwrite_ne d k q v h
  · rw [if_neg hm]
    exact dictLookup_append_ne d k q v h

theorem keys_map_overwrite (d : List (String × Json)) (k : String) (v : Json) :
    (d.map (fun p => if p.1 = k then (k, v) else p)).map Prod.fst = d.map Prod.fst := by
  induction d with
  | nil => rfl
  | cons p d ih =>
    simp only [List.map_cons, ih]
    by_cases hp : p.1 = k
    · rw [if_pos hp]
      simp [hp]
    · rw [if_neg hp]

theorem keys_dictInsert_mem (d : List (String × Json)) (k : String) (v : Json)
    (h : k ∈ d.map Prod.fst) :
    (dictInsert d k v).map Prod.fst = d.map Prod.fst := by
  unfold dictInsert
  rw [if_pos ((any_key_iff d k).2 h)]
  exact keys_map_overwrite d k v

theorem keys_dictInsert_not_mem (d : List (String × Json)) (k : String) (v : Json)
    (h : ¬ k ∈ d.map Prod.fst) :
    (dictInsert d k v).map Prod.fst = d.map Prod.fst ++ [k] := by
  unfold dictInsert
  rw [if_neg (fun hc => h ((any_key_iff d k).1 hc))]
  simp

theorem dictInsert_values (P : Json → Prop) (d : List (String × Json))
    (k : String) (v : Json) (hd : ∀ p ∈ d, P p.2) (hv : P v) :
    ∀ p ∈ dictInsert d k v, P p.2 := by
  intro p hp
  unfold dictInsert at hp
  by_cases h : d.any (fun q => q.1 = k)
  · rw [if_pos h] at hp
    obtain ⟨q, hq, hqe⟩ := List.mem_map.mp hp
    by_cases hk : q.1 = k
    · rw [if_pos hk] at hqe
      rw [← hqe]
      exact hv
    · rw [if_neg hk] at hqe
      exact hqe ▸ hd q hq
  · rw [if_neg h] at hp
    rcases List.mem_append.mp hp with h1 | h2
    · exact hd p h1
    · have hpe : p = (k, v) := List.mem_singleton.mp h2
      rw [hpe]
      exact hv

/-! ## First-occurrence key order of the bulk results dict -/

/-- The keys a Python dict ends up with after inserting under each of
`urls` in order, given it already holds the keys `seen`: each distinct URL
appears once, at the position of its first occurrence. -/
def firstOccurAux (seen : List String) : List String → List String
  | [] => []
  | u :: rest =>
    if u ∈ seen then firstOccurAux seen rest
    else u :: firstOccurAux (seen ++ [u]) rest

/-- The distinct elements of `urls` in order of first occurrence. -/
def firstOccur (urls : List String) : List String :=
  firstOccurAux [] urls

theorem firstOccurAux_of_nodup (urls : List String) :
    ∀ seen, urls.Nodup → (∀ u ∈ urls, ¬ u ∈ seen) →
      firstOccurAux seen urls = urls := by
  induction urls with
  | nil => intro seen _ _; rfl
  | cons u rest ih =>
    intro seen hnd hdisj
    obtain ⟨hni, hnd2⟩ := List.nodup_cons.mp hnd
    simp only [firstOccurAux]
    rw [if_neg (hdisj u (List.mem_cons_self u rest))]
    congr 1
    apply ih (seen ++ [u]) hnd2
    intro x hx hmem
    rcases List.mem_append.mp hmem with h1 | h2
    · exact hdisj x (List.mem_cons_of_mem u hx) h1
    · exact hni ((List.mem_singleton.mp h2) ▸ hx)

theorem firstOccur_of_nodup (urls : List String) (h : urls.Nodup) :
    firstOccur urls = urls :=
  firstOccurAux_of_nodup urls [] h (fun u _ hc => (List.not_mem_nil u) hc)

/-! ## The bulk loop: trace, keys, and per-URL results -/

theorem bulkRun_trace (line : String → String) (req : String → Request)
    (net : Nat → Net) :
    ∀ (urls : List String) (i : Nat) (results : List (String × Json)),
      (bulkRun line req net i results urls).1 =
        urls.flatMap (fun url => [Event.echo (line url), Event.call (req url)]) := by
  intro urls
  induction urls with
  | nil => intro i results; rfl
  | cons url rest ih =>
    intro i results
    simp only [bulkRun, List.flatMap_cons]
    rw [ih]
    rfl

theorem bulkRun_keys (line : String → String) (req : String → Request)
    (net : Nat → Net) :
    ∀ (urls : List String) (i : Nat) (results : List (String × Json)),
      (bulkRun line req net i results urls).2.map Prod.fst =
        results.map Prod.fst ++ firstOccurAux (results.map Prod.fst) urls := by
  intro urls
  induction urls with
  | nil => intro i results; simp [bulkRun, firstOccurAux]
  | cons url rest ih =>
    intro i results
    simp only [bulkRun]
    rw [ih]
    by_cases hmem : url ∈ results.map Prod.fst
    · rw [keys_dictInsert_mem _ url _ hmem]
      simp only [firstOccurAux]
      rw [if_pos hmem]
    · rw [keys_dictInsert_not_mem _ url _ hmem]
      simp only [firstOccurAux]
      rw [if_neg hmem]
      simp

theorem bulkRun_lookup_preserve (line : String → String) (req : String → Request)
    (net : Nat → Net) :
    ∀ (urls : List String) (i : Nat) (results : List (String × Json))
      (k : String), ¬ k ∈ urls →
      dictLookup (bulkRun line req net i results urls).2 k = dictLookup results k := by
  intro urls
  induction urls with
  | nil => intro i results k _; rfl
  | cons url rest ih =>
    intro i results k hk
    simp only [bulkRun]
    rw [ih (i + 1) _ k (fun hc => hk (List.mem_cons_of_mem url hc))]
    exact dictLookup_insert_ne _ url k _ (fun hc => hk (List.mem_cons.mpr (Or.inl hc)))

theorem bulkRun_lookup_nodup (line : String → String) (req : String → Request)
    (net : Nat → Net) :
    ∀ (urls : List String), urls.Nodup →
    ∀ (i : Nat) (results : List (String × Json)) (j : Nat) (h : j < urls.length),
      dictLookup (bulkRun line req net i results urls).2 (urls.get ⟨j, h⟩) =
        some (runRequest (net (i + j)) (req (urls.get ⟨j, h⟩))) := by
  intro urls
  induction urls with
  | nil => intro _ i results j h; exact absurd h (Nat.not_lt_zero j)
  | cons url rest ih =>
    intro hnd i results j h
    obtain ⟨hni, hnd2⟩ := List.nodup_cons.mp hnd
    cases j with
    | zero =>
      show dictLookup (bulkRun line req net (i + 1)
          (dictInsert results url (runRequest (net i) (req url))) rest).2 url =
        some (runRequest (net (i + 0)) (req url))
      rw [bulkRun_lookup_preserve line req net rest (i + 1) _ url hni]
      rw [dictLookup_insert_self, Nat.add_zero]
    | succ n =>
      have hn : n < rest.length := Nat.lt_of_succ_lt_succ h
      show dictLookup (bulkRun line req net (i + 1)
          (dictInsert results url (runRequest (net i) (req url))) rest).2
          (rest.get ⟨n, hn⟩) =
        some (runRequest (net (i + (n + 1))) (req (rest.get ⟨n, hn⟩)))
      rw [ih hnd2 (i + 1) _ n hn]
      have harith : i + 1 + n = i + (n + 1) := by omega
      rw [harith]

theorem bulkRun_values (line : String → String) (req : String → Request)
    (net : Nat → Net) (P : Json → Prop)
    (hP : ∀ (n : Net) (r : Request), P (runRequest n r)) :
    ∀ (urls : List String) (i : Nat) (results : List (String × Json)),
      (∀ p ∈ results, P p.2) →
      ∀ p ∈ (bulkRun line req net i results urls).2, P p.2 := by
  intro urls
  induction urls with
  | nil => intro i results h p hp; exact h p hp
  | cons url rest ih =>
    intro i results h p hp
    simp only [bulkRun] at hp
    exact ih (i + 1) _ (dictInsert_values P _ url _ h (hP (net i) (req url))) p hp

/-! ## Claims C2, C6, C9 -/

/-- A per-call network oracle: the first issued call raises a connection
error, every later call answers 200 with body `true`. -/
def netSeqW : Nat → Net := fun i _ =>
  if i = 0 then HttpOutcome.exn "Connection refused"
  else HttpOutcome.resp 200 "OK" (BodyParse.parsed (Json.bool true))

/-- A per-call network oracle answering 200 `null` on every call. -/
def netsOkW : Nat → Net := fun _ => netOkW

/-- C2 counterexample: with the duplicated list `["http://a", "http://a"]`
and a network failing the first call and succeeding on the second, the
result dict has the single key `"http://a"` holding only the second call's
outcome — its keys are not the supplied instances and the first call's
failure result is not present. -/
theorem C2_duplicate_counterexample :
    (mgrW.bulk_health_check netSeqW ["http://a", "http://a"]).2.map Prod.fst =
      ["http://a"] ∧
    ¬ (mgrW.bulk_health_check netSeqW ["http://a", "http://a"]).2.map Prod.fst =
      ["http://a", "http://a"] ∧
    dictLookup (mgrW.bulk_health_check netSeqW ["http://a", "http://a"]).2
      "http://a" = some (successResult (Json.bool true)) := by
  refine ⟨rfl, ?_, rfl⟩
  intro hc
  have h1 : (["http://a"] : List String).length = 1 := rfl
  rw [show (mgrW.bulk_health_check netSeqW ["http://a", "http://a"]).2.map Prod.fst =
        (["http://a"] : List String) from rfl] at hc
  exact absurd (congrArg List.length hc) (by decide)

/-- C2 (amended): for every list of instance URLs, each bulk operation
prints one progress line naming each instance immediately before issuing
that instance's call, strictly in the supplied order, and a failure on one
instance never prevents any other instance from being called; for every
list of pairwise-distinct URLs the result dict's keys are exactly the
supplied instances in order, each mapped to the outcome of its own call
(depending only on that call's network behaviour).  A URL supplied more
than once still triggers one call per occurrence, but its dict entries
collapse into one. -/
theorem C2_bulk_isolated (m : PlatformAdminManager) (net : Nat → Net)
    (urls : List String) (icfg : Json) :
    (m.bulk_health_check net urls).1 =
      urls.flatMap (fun u => [Event.echo ("Checking health for " ++ u ++ "..."),
                              Event.call (m.healthRequest u)]) ∧
    (m.bulk_deploy_integration net urls icfg).1 =
      urls.flatMap (fun u => [Event.echo ("Deploying integration to " ++ u ++ "..."),
                              Event.call (m.deployRequest u icfg)]) ∧
    (urls.Nodup →
      (m.bulk_health_check net urls).2.map Prod.fst = urls ∧
      ∀ (j : Nat) (h : j < urls.length),
        dictLookup (m.bulk_health_check net urls).2 (urls.get ⟨j, h⟩) =
          some (m.health_check (net j) (urls.get ⟨j, h⟩))) ∧
    (urls.Nodup →
      (m.bulk_deploy_integration net urls icfg).2.map Prod.fst = urls ∧
      ∀ (j : Nat) (h : j < urls.length),
        dictLookup (m.bulk_deploy_integration net urls icfg).2 (urls.get ⟨j, h⟩) =
          some (m.deploy_integration (net j) (urls.get ⟨j, h⟩) icfg)) := by
  refine ⟨bulkRun_trace _ _ net urls 0 [], bulkRun_trace _ _ net urls 0 [],
          fun hnd => ⟨?_, ?_⟩, fun hnd => ⟨?_, ?_⟩⟩
  · have hk := bulkRun_keys (fun url => "Checking health for " ++ url ++ "...")
      (fun url => m.healthRequest url) net urls 0 []
    simp only [List.map_nil, List.nil_append] at hk
    exact hk.trans (firstOccur_of_nodup urls hnd)
  · intro j h
    have hl := bulkRun_lookup_nodup (fun url => "Checking health for " ++ url ++ "...")
      (fun url => m.healthRequest url) net urls hnd 0 [] j h
    rw [Nat.zero_add] at hl
    exact hl
  · have hk := bulkRun_keys (fun url => "Deploying integration to " ++ url ++ "...")
      (fun url => m.deployRequest url icfg) net urls 0 []
    simp only [List.map_nil, List.nil_append] at hk
    exact hk.trans (firstOccur_of_nodup urls hnd)
  · intro j h
    have hl := bulkRun_lookup_nodup (fun url => "Deploying integration to " ++ url ++ "...")
      (fun url => m.deployRequest url icfg) net urls hnd 0 [] j h
    rw [Nat.zero_add] at hl
    exact hl

theorem C2_bulk_isolated_witness :
    (["http://a", "http://b"] : List String).Nodup ∧
    dictLookup (mgrW.bulk_health_check netSeqW ["http://a", "http://b"]).2
      "http://a" = some (errorResult "Connection refused") ∧
    dictLookup (mgrW.bulk_health_check netSeqW ["http://a", "http://b"]).2
      "http://b" = some (successResult (Json.bool true)) := by
  have hnd : (["http://a", "http://b"] : List String).Nodup := by decide
  have h := (C2_bulk_isolated mgrW netSeqW ["http://a", "http://b"] Json.null).2.2.1 hnd
  exact ⟨hnd, h.2 0 (by decide), h.2 1 (by decide)⟩

/-- C6 counterexample: supplying the same reference twice yields a
one-entry result dict, so a duplicated reference does not contribute its
own entry. -/
theorem C6_duplicate_counterexample :
    (mgrW.bulk_deploy_integration netSeqW ["http://a", "http://a"] Json.null).2.length = 1 ∧
    ¬ (mgrW.bulk_deploy_integration netSeqW ["http://a", "http://a"] Json.null).2.length = 2 := by
  refine ⟨rfl, ?_⟩
  rw [show (mgrW.bulk_deploy_integration netSeqW ["http://a", "http://a"] Json.null).2.length = 1
        from rfl]
  decide

/-- C6 (amended): the BulkResult of either bulk operation is a mapping
whose keys are the distinct supplied instance references in order of first
occurrence — duplicated references are collapsed into a single entry — and
for a duplicate-free sequence the insertion order equals exactly the order
the instances were supplied, one entry per reference. -/
theorem C6_first_occurrence_order (m : PlatformAdminManager) (net : Nat → Net)
    (urls : List String) (icfg : Json) :
    (m.bulk_health_check net urls).2.map Prod.fst = firstOccur urls ∧
    (m.bulk_deploy_integration net urls icfg).2.map Prod.fst = firstOccur urls ∧
    (urls.Nodup →
      (m.bulk_health_check net urls).2.map Prod.fst = urls ∧
      (m.bulk_deploy_integration net urls icfg).2.map Prod.fst = urls) := by
  have hk1 := bulkRun_keys (fun url => "Checking health for " ++ url ++ "...")
    (fun url => m.healthRequest url) net urls 0 []
  have hk2 := bulkRun_keys (fun url => "Deploying integration to " ++ url ++ "...")
    (fun url => m.deployRequest url icfg) net urls 0 []
  simp only [List.map_nil, List.nil_append] at hk1 hk2
  exact ⟨hk1, hk2, fun hnd =>
    ⟨hk1.trans (firstOccur_of_nodup urls hnd),
     hk2.trans (firstOccur_of_nodup urls hnd)⟩⟩

theorem C6_first_occurrence_order_witness :
    (["http://a", "http://b"] : List String).Nodup ∧
    (mgrW.bulk_health_check netsOkW ["http://a", "http://b"]).2.map Prod.fst =
      ["http://a", "http://b"] :=
  ⟨by decide,
   ((C6_first_occurrence_order mgrW netsOkW ["http://a", "http://b"] Json.null).2.2
     (by decide)).1⟩

/-- C9: every result produced by the five operations is one of exactly two
record shapes — `{"status": "success", "data": <parsed body>}` or
`{"status": "error", "error": <message>}` — and every value of every bulk
result dict has the same shape. -/
theorem C9_result_shape (m : PlatformAdminManager) (net : Net)
    (nets : Nat → Net) (url : String) (icfg mcfg : Json)
    (urls : List String) :
    resultShape (m.ping net url) ∧
    resultShape (m.health_check net url) ∧
    resultShape (m.system_info net url) ∧
    resultShape (m.deploy_integration net url icfg) ∧
    resultShape (m.execute_migration net url mcfg) ∧
    (∀ p ∈ (m.bulk_health_check nets urls).2, resultShape p.2) ∧
    (∀ p ∈ (m.bulk_deploy_integration nets urls icfg).2, resultShape p.2) :=
  ⟨runRequest_shape net (m.pingRequest url),
   runRequest_shape net (m.healthRequest url),
   runRequest_shape net (m.infoRequest url),
   runRequest_shape net (m.deployRequest url icfg),
   runRequest_shape net (m.migrateRequest url mcfg),
   bulkRun_values _ _ nets resultShape runRequest_shape urls 0 []
     (fun p hp => absurd hp (List.not_mem_nil p)),
   bulkRun_values _ _ nets resultShape runRequest_shape urls 0 []
     (fun p hp => absurd hp (List.not_mem_nil p))⟩

theorem C9_result_shape_witness :
    resultShape (successResult Json.null) :=
  (C9_result_shape mgrW netOkW netsOkW "http://x" Json.null Json.null
      ["http://a"]).2.2.2.2.2.1
    ("http://a", successResult Json.null)
    (show ("http://a", successResult Json.null) ∈
        [("http://a", successResult Json.null)] from List.mem_singleton_self _)

end AdminApi
